import Mathlib

/-!
Verification of the access-control core of the DevKit platform demo
(session-token codec, role→permission table, and the authorization checks
embedded in the users/projects route handlers).

Strings of the TypeScript source are modelled as `List Char` (`Str` below);
JavaScript string operations (`startsWith`, `slice`, `lastIndexOf`,
`substring`) become the corresponding list operations. `Map<string, T>`
becomes an association list with JS `Map` get/set/delete/values semantics.
Nondeterministic collaborators (the `uuidv4()` nonce, `now()` timestamps,
`generateId`) are passed in as explicit parameters.
-/

namespace DevKit

/-- Strings of the source, modelled as lists of characters. -/
abbrev Str := List Char

/-! ## Token codec (src/server/services/auth.service.ts) -/

/-- Embeds the constant `TOKEN_PREFIX = 'session_'` of auth.service.ts. -/
def TOKEN_HEAD : Str := "session_".toList

/-- Embeds JavaScript `s.lastIndexOf(c)`: index of the last occurrence of
`c` in `s`, with `none` standing for the JS return value `-1`. -/
def lastIndexOf (c : Char) : Str → Option Nat
  | [] => none
  | a :: rest =>
    match lastIndexOf c rest with
    | some i => some (i + 1)
    | none => if a = c then some 0 else none

/-- Error outcomes of `AuthService.validateToken`, one constructor per
distinct `error` message string in the source: `'Invalid token format'`
(missing prefix), `'Malformed token'` (no separator in the body, or an
empty part), `'User not found'`. -/
inductive TokenError where
  | invalidFormat
  | malformed
  | userNotFound
deriving DecidableEq, Repr

/-- The spec's error taxonomy collapses the two parse-failure messages
(`'Invalid token format'` and `'Malformed token'`) into the single kind
`MalformedToken`, keeping `UserNotFound` separate (spec §7). -/
def TokenError.malformedTokenKind : TokenError → Bool
  | .invalidFormat => true
  | .malformed => true
  | .userNotFound => false

/-- The pair recovered from a well-formed token body. -/
structure ParsedToken where
  identityId : Str
  sessionId : Str
deriving DecidableEq, Repr

/-- Embeds the parsing section of `AuthService.validateToken`
(auth.service.ts lines 70–91), before the user lookup:
check the `session_` prefix (the JS guard `!token` is subsumed, since the
non-empty prefix is never a prefix of the empty string), strip it, split
the body at the last `'_'`, and reject empty parts. -/
def parseToken (token : Str) : Except TokenError ParsedToken :=
  if TOKEN_HEAD.isPrefixOf token = false then .error .invalidFormat
  else
    let tokenBody := token.drop TOKEN_HEAD.length
    match lastIndexOf '_' tokenBody with
    | none => .error .malformed
    | some i =>
      let userId := tokenBody.take i
      let sessionId := tokenBody.drop (i + 1)
      if userId = [] ∨ sessionId = [] then .error .malformed
      else .ok ⟨userId, sessionId⟩

/-- Embeds `AuthService.generateSessionToken`: the token
`` `${TOKEN_PREFIX}${userId}_${sessionId}` ``, with the `uuidv4()` session
nonce passed in as the explicit parameter `nonce`. -/
def generateSessionToken (userId nonce : Str) : Str :=
  TOKEN_HEAD ++ userId ++ ('_' :: nonce)

/-- A `uuidv4()` value is non-empty and consists of hexadecimal digits and
hyphens only, so in particular it never contains `'_'`. This predicate is
the property of the nonce that the round-trip relies on. -/
def UuidNonceShape (nonce : Str) : Prop := nonce ≠ [] ∧ '_' ∉ nonce

/-! ### Helper lemmas about `lastIndexOf` and prefixes -/

theorem lastIndexOf_eq_none_of_not_mem {c : Char} :
    ∀ {l : Str}, c ∉ l → lastIndexOf c l = none := by
  intro l
  induction l with
  | nil => intro _; rfl
  | cons a rest ih =>
    intro h
    have hne : a ≠ c := fun hac => h (hac ▸ List.mem_cons_self a rest)
    have hrest : c ∉ rest := fun hm => h (List.mem_cons_of_mem a hm)
    simp [lastIndexOf, ih hrest, hne]

theorem lastIndexOf_append_cons {c : Char} {l₂ : Str} (h : c ∉ l₂) :
    ∀ l₁ : Str, lastIndexOf c (l₁ ++ c :: l₂) = some l₁.length := by
  intro l₁
  induction l₁ with
  | nil => simp [lastIndexOf, lastIndexOf_eq_none_of_not_mem h]
  | cons a rest ih => simp [lastIndexOf, ih]

theorem lastIndexOf_spec {c : Char} :
    ∀ {l : Str} {i : Nat}, lastIndexOf c l = some i →
      l = l.take i ++ c :: l.drop (i + 1) := by
  intro l
  induction l with
  | nil => intro i h; simp [lastIndexOf] at h
  | cons a rest ih =>
    intro i h
    unfold lastIndexOf at h
    cases hrest : lastIndexOf c rest with
    | some j =>
      rw [hrest] at h
      simp only [Option.some.injEq] at h
      subst h
      have := ih hrest
      simpa [List.take, List.drop] using congrArg (a :: ·) this
    | none =>
      rw [hrest] at h
      by_cases hac : a = c
      · rw [if_pos hac] at h
        injection h with h
        subst h
        simp [hac]
      · simp [hac] at h

theorem isPrefixOf_append_self : ∀ a b : Str, a.isPrefixOf (a ++ b) = true := by
  intro a
  induction a with
  | nil => intro b; simp [List.isPrefixOf]
  | cons x xs ih => intro b; simp [List.isPrefixOf, ih]

theorem isPrefixOf_eq_append :
    ∀ (a t : Str), a.isPrefixOf t = true → t = a ++ t.drop a.length := by
  intro a
  induction a with
  | nil => intro t _; simp
  | cons x xs ih =>
    intro t h
    cases t with
    | nil => simp [List.isPrefixOf] at h
    | cons y ys =>
      simp only [List.isPrefixOf, Bool.and_eq_true, beq_iff_eq] at h
      obtain ⟨hxy, hp⟩ := h
      have := ih ys hp
      simp only [List.cons_append, List.length_cons, List.drop_succ_cons]
      rw [hxy, ← this]

theorem drop_append_cons_length (id : Str) (c : Char) (rest : Str) :
    (id ++ c :: rest).drop (id.length + 1) = rest := by
  have : id ++ c :: rest = (id ++ [c]) ++ rest := by simp
  rw [this]
  have hlen : (id ++ [c]).length = id.length + 1 := by simp
  rw [← hlen, List.drop_left]

/-! ## Permission table (auth.service.ts lines 33–37, 112–122) -/

/-- Embeds the `PERMISSIONS` mapping literal together with the
lookup-with-default idiom `PERMISSIONS[role] || []`: the three enumerated
roles map to their permission lists, every other string to `[]`. -/
def PERMISSIONS (role : Str) : List Str :=
  if role = "admin".toList then
    ["read".toList, "write".toList, "delete".toList, "manage:users".toList,
     "manage:projects".toList, "manage:api-keys".toList]
  else if role = "member".toList then
    ["read".toList, "write".toList, "manage:projects".toList, "manage:api-keys".toList]
  else if role = "viewer".toList then
    ["read".toList]
  else []

/-- Embeds the `User` interface of src/types/index.ts. `avatarUrl` is an
optional, nullable field; `role` is a string at runtime. -/
structure User where
  id : Str
  email : Str
  name : Str
  role : Str
  avatarUrl : Option Str
  createdAt : Str
  updatedAt : Str
deriving DecidableEq, Repr

/-- Embeds `AuthService.hasPermission`: membership of `permission` in
`PERMISSIONS[user.role] || []` (JS `Array.includes`). -/
def hasPermission (user : User) (permission : Str) : Bool :=
  (PERMISSIONS user.role).contains permission

/-- Embeds `AuthService.getPermissionsForRole`: `PERMISSIONS[role] || []`. -/
def getPermissionsForRole (role : Str) : List Str :=
  PERMISSIONS role

/-! ## Claims about the token codec and the permission table -/

/-- C1. Token round-trip: for every non-empty identity id — including ids
that contain the separator `'_'` — and every session nonce of the shape
`uuidv4()` produces (non-empty, no `'_'`), parsing the minted token
recovers exactly that id as `identityId` and the nonce as `sessionId`,
because parsing splits the prefix-stripped body on the last `'_'`; and the
token `"session_usr_alice_demo123"` parses to `identityId = "usr_alice"`,
`sessionId = "demo123"`. -/
theorem C1_token_round_trip (id nonce : Str) (hid : id ≠ [])
    (hnonce : UuidNonceShape nonce) :
    parseToken (generateSessionToken id nonce) = .ok ⟨id, nonce⟩ ∧
    parseToken ("session_usr_alice_demo123".toList) =
      .ok ⟨"usr_alice".toList, "demo123".toList⟩ := by
  obtain ⟨hne, hsep⟩ := hnonce
  refine ⟨?_, by rfl⟩
  unfold generateSessionToken parseToken
  rw [List.append_assoc]
  have hpre := isPrefixOf_append_self TOKEN_HEAD (id ++ '_' :: nonce)
  rw [hpre]
  simp only [Bool.true_eq_false, if_false, List.drop_left,
    lastIndexOf_append_cons hsep id, List.take_left, drop_append_cons_length]
  rw [if_neg]
  intro h
  rcases h with h | h
  · exact hid h
  · exact hne h

/-- Witness for C1 at the concrete scenario from the spec. -/
theorem C1_token_round_trip_witness :
    parseToken (generateSessionToken "usr_alice".toList "demo123".toList) =
      .ok ⟨"usr_alice".toList, "demo123".toList⟩ :=
  (C1_token_round_trip "usr_alice".toList "demo123".toList (by decide)
    ⟨by decide, by decide⟩).1

/-- C6. Malformed-token failure modes: parsing fails (with an error of the
spec's `MalformedToken` class) when the token lacks the `"session_"`
prefix, when the prefix-stripped body contains no `'_'`, or when either
resulting part is empty; whenever parsing succeeds the token is exactly
the prefix, the recovered id, `'_'`, and the recovered nonce — it never
succeeds with a wrong or truncated id; and the concrete inputs
`"not_a_token"` and `"session_"` both fail. -/
theorem C6_parse_failure_modes :
    (∀ token : Str, TOKEN_HEAD.isPrefixOf token = false →
      parseToken token = .error .invalidFormat ∧
      TokenError.invalidFormat.malformedTokenKind = true) ∧
    (∀ token : Str, TOKEN_HEAD.isPrefixOf token = true →
      lastIndexOf '_' (token.drop TOKEN_HEAD.length) = none →
      parseToken token = .error .malformed ∧
      TokenError.malformed.malformedTokenKind = true) ∧
    (∀ (token : Str) (i : Nat), TOKEN_HEAD.isPrefixOf token = true →
      lastIndexOf '_' (token.drop TOKEN_HEAD.length) = some i →
      (token.drop TOKEN_HEAD.length).take i = [] ∨
        (token.drop TOKEN_HEAD.length).drop (i + 1) = [] →
      parseToken token = .error .malformed) ∧
    (∀ (token : Str) (p : ParsedToken), parseToken token = .ok p →
      token = TOKEN_HEAD ++ p.identityId ++ ('_' :: p.sessionId)) ∧
    parseToken ("not_a_token".toList) = .error .invalidFormat ∧
    parseToken ("session_".toList) = .error .malformed := by
  refine ⟨?_, ?_, ?_, ?_, by rfl, by rfl⟩
  · intro token h
    exact ⟨by simp [parseToken, h], rfl⟩
  · intro token h1 h2
    refine ⟨?_, rfl⟩
    unfold parseToken
    rw [h1]
    simp only [Bool.true_eq_false, if_false, h2]
  · intro token i h1 h2 h3
    unfold parseToken
    rw [h1]
    simp only [Bool.true_eq_false, if_false, h2]
    exact if_pos h3
  · intro token p h
    unfold parseToken at h
    cases hpre : TOKEN_HEAD.isPrefixOf token with
    | false => rw [hpre] at h; simp at h
    | true =>
      rw [hpre] at h
      simp only [Bool.true_eq_false, if_false] at h
      cases hlast : lastIndexOf '_' (token.drop TOKEN_HEAD.length) with
      | none => rw [hlast] at h; simp at h
      | some i =>
        rw [hlast] at h
        simp only at h
        by_cases hempty : (token.drop TOKEN_HEAD.length).take i = [] ∨
            (token.drop TOKEN_HEAD.length).drop (i + 1) = []
        · rw [if_pos hempty] at h; simp at h
        · rw [if_neg hempty] at h
          injection h with h
          have hbody := lastIndexOf_spec hlast
          have htok := isPrefixOf_eq_append TOKEN_HEAD token hpre
          rw [← h]
          simp only [List.append_assoc]
          rw [← hbody]
          exact htok

/-- Witness for C6's quantified conjuncts at concrete inputs. -/
theorem C6_parse_failure_modes_witness :
    parseToken ("xyz".toList) = .error .invalidFormat ∧
    parseToken ("session_demo".toList) = .error .malformed ∧
    parseToken ("session__x".toList) = .error .malformed ∧
    "session_usr_alice_demo123".toList =
      TOKEN_HEAD ++ "usr_alice".toList ++ ('_' :: "demo123".toList) :=
  ⟨(C6_parse_failure_modes.1 ("xyz".toList) (by decide)).1,
   (C6_parse_failure_modes.2.1 ("session_demo".toList) (by decide) (by decide)).1,
   C6_parse_failure_modes.2.2.1 ("session__x".toList) 0 (by decide) (by decide)
     (by decide),
   C6_parse_failure_modes.2.2.2.1 ("session_usr_alice_demo123".toList)
     ⟨"usr_alice".toList, "demo123".toList⟩ (by rfl)⟩

/-- C5. Fail-closed permission table: for every role string outside the
enumerated set {admin, member, viewer}, `getPermissionsForRole` returns
the empty list and `hasPermission` is false for every permission. (Both
functions are total Lean functions, so neither can throw.) -/
theorem C5_fail_closed_unknown_roles (role : Str)
    (h1 : role ≠ "admin".toList) (h2 : role ≠ "member".toList)
    (h3 : role ≠ "viewer".toList) :
    getPermissionsForRole role = [] ∧
    ∀ (u : User) (permission : Str), u.role = role →
      hasPermission u permission = false := by
  have hperm : PERMISSIONS role = [] := by
    unfold PERMISSIONS
    rw [if_neg h1, if_neg h2, if_neg h3]
  refine ⟨hperm, ?_⟩
  intro u permission hu
  unfold hasPermission
  rw [hu, hperm]
  rfl

/-- Witness for C5 at the unknown role string `"superuser"`. -/
theorem C5_fail_closed_unknown_roles_witness :
    getPermissionsForRole ("superuser".toList) = [] :=
  (C5_fail_closed_unknown_roles ("superuser".toList) (by decide) (by decide)
    (by decide)).1

/-- C7. Every permission granted to the viewer role is also granted to the
member role, and the member role has at least one permission the viewer
role lacks: viewer's permission set is a strict subset of member's in the
static table. -/
theorem C7_viewer_strictly_below_member :
    (∀ p ∈ PERMISSIONS ("viewer".toList), p ∈ PERMISSIONS ("member".toList)) ∧
    ∃ p ∈ PERMISSIONS ("member".toList), p ∉ PERMISSIONS ("viewer".toList) := by
  decide

/-! ## Data model and in-memory store (src/server/db.ts, src/types/index.ts) -/

/-- Embeds the `Project` interface of src/types/index.ts. `status` is one
of the strings `'active' | 'archived' | 'deleted'` at runtime. -/
structure Project where
  id : Str
  name : Str
  description : Str
  ownerId : Str
  status : Str
  createdAt : Str
  updatedAt : Str
deriving DecidableEq, Repr

/-- A JavaScript `Map<string, α>`, modelled as an association list. -/
abbrev StoreMap (α : Type) := List (Str × α)

/-- JS `Map.get`: the value stored under `k`, if any. -/
def mapGet {α : Type} (m : StoreMap α) (k : Str) : Option α :=
  match m with
  | [] => none
  | kv :: rest => if kv.1 = k then some kv.2 else mapGet rest k

/-- JS `Map.set`: replace the entry for `k` in place when present,
otherwise append a new entry. -/
def mapSet {α : Type} (m : StoreMap α) (k : Str) (v : α) : StoreMap α :=
  match m with
  | [] => [(k, v)]
  | kv :: rest => if kv.1 = k then (k, v) :: rest else kv :: mapSet rest k v

/-- JS `Map.delete`: remove the entry for `k`. -/
def mapDelete {α : Type} (m : StoreMap α) (k : Str) : StoreMap α :=
  match m with
  | [] => []
  | kv :: rest => if kv.1 = k then mapDelete rest k else kv :: mapDelete rest k

/-- JS `Array.from(m.values())` for a `Map` in insertion order. -/
def mapValues {α : Type} (m : StoreMap α) : List α :=
  m.map Prod.snd

/-- Embeds the `Database` record of db.ts: the two in-memory maps. -/
structure Database where
  users : StoreMap User
  projects : StoreMap Project
deriving DecidableEq, Repr

/-- Embeds the `AuthContext` interface of src/types/index.ts. -/
structure AuthContext where
  userId : Str
  user : User
  sessionId : Str
deriving DecidableEq, Repr

/-- Embeds the lookup half of `AuthService.validateToken` (auth.service.ts
lines 93–107) composed with the parsing half: resolve the parsed identity
id against `db.users` and build the `AuthContext`
`{ userId: user.id, user, sessionId }`. -/
def validateToken (users : StoreMap User) (token : Str) :
    Except TokenError AuthContext :=
  match parseToken token with
  | .error e => .error e
  | .ok p =>
    match mapGet users p.identityId with
    | none => .error .userNotFound
    | some user => .ok ⟨user.id, user, p.sessionId⟩

/-! ## HTTP boundary (responses and middleware) -/

/-- The `data` part of an `ApiResponse`, one constructor per payload shape
the users/projects routes produce. -/
inductive Payload where
  | empty
  | user (u : User)
  | userList (l : List User)
  | project (p : Project)
  | projectList (l : List Project)
  | deletedFlag
deriving DecidableEq, Repr

/-- An HTTP response at the granularity the claims need: status code,
the `success` flag, the machine-readable error code, and the payload. -/
structure HttpResponse where
  status : Nat
  success : Bool
  code : Option Str
  payload : Payload
deriving DecidableEq, Repr

/-- An error `ApiResponse` with `success: false` and an error code. -/
def errorResponse (status : Nat) (code : Str) : HttpResponse :=
  ⟨status, false, some code, .empty⟩

/-- A success `ApiResponse` with `success: true` and a payload. -/
def okResponse (status : Nat) (payload : Payload) : HttpResponse :=
  ⟨status, true, none, payload⟩

def unauthorized : HttpResponse := errorResponse 401 ("UNAUTHORIZED".toList)

def forbidden : HttpResponse := errorResponse 403 ("FORBIDDEN".toList)

def notFound : HttpResponse := errorResponse 404 ("NOT_FOUND".toList)

def validationError : HttpResponse := errorResponse 400 ("VALIDATION_ERROR".toList)

def conflict : HttpResponse := errorResponse 409 ("CONFLICT".toList)

/-- Embeds `requireAuth` (auth.middleware.ts lines 30–82): 401 when the
`Authorization` header is absent, lacks the `Bearer ` scheme, or when
`validateToken` on the remainder fails; otherwise the `AuthContext` is
attached to the request. -/
def requireAuth (users : StoreMap User) (authHeader : Option Str) :
    Except HttpResponse AuthContext :=
  match authHeader with
  | none => .error unauthorized
  | some header =>
    if ("Bearer ".toList).isPrefixOf header = false then .error unauthorized
    else
      match validateToken users (header.drop 7) with
      | .error _ => .error unauthorized
      | .ok ctx => .ok ctx

/-- Embeds `requirePermission(permission)` (auth.middleware.ts lines
92–122) as used after `requireAuth`, so the `!req.auth` 401 branch is
unreachable: 403 when `hasPermission` is false. -/
def requirePermission (permission : Str) (ctx : AuthContext) :
    Except HttpResponse Unit :=
  if hasPermission ctx.user permission = false then .error forbidden
  else .ok ()

/-! ## Validation schemas (zod schemas in the routers)

The zod `email()` and `url()` format checks are delegated to the zod
collaborator (outside this repository); the length bounds, non-emptiness
and enum membership checks of the schemas are modelled exactly. -/

/-- Embeds `createProjectSchema`: `name` required (1–100 chars),
`description` optional (≤ 500 chars, zod default `''`). -/
structure CreateProjectInput where
  name : Str
  description : Option Str
deriving DecidableEq, Repr

def validCreateProject (i : CreateProjectInput) : Bool :=
  decide (1 ≤ i.name.length) && decide (i.name.length ≤ 100) &&
  (match i.description with
   | none => true
   | some d => decide (d.length ≤ 500))

/-- Embeds `updateProjectSchema`: all fields optional; `name` non-empty
≤ 100, `description` ≤ 500, `status` in the enum. -/
structure UpdateProjectInput where
  name : Option Str
  description : Option Str
  status : Option Str
deriving DecidableEq, Repr

def validUpdateProject (i : UpdateProjectInput) : Bool :=
  (match i.name with
   | none => true
   | some n => decide (1 ≤ n.length) && decide (n.length ≤ 100)) &&
  (match i.description with
   | none => true
   | some d => decide (d.length ≤ 500)) &&
  (match i.status with
   | none => true
   | some s => decide (s = "active".toList) || decide (s = "archived".toList) ||
       decide (s = "deleted".toList))

/-- Embeds `createUserSchema`: `email` ≤ 255 (format check delegated),
`name` required 1–100, `role` an optional enum member (zod default
`'member'`). -/
structure CreateUserInput where
  email : Str
  name : Str
  role : Option Str
deriving DecidableEq, Repr

def validCreateUser (i : CreateUserInput) : Bool :=
  decide (i.email.length ≤ 255) &&
  decide (1 ≤ i.name.length) && decide (i.name.length ≤ 100) &&
  (match i.role with
   | none => true
   | some r => decide (r = "admin".toList) || decide (r = "member".toList) ||
       decide (r = "viewer".toList))

/-- Embeds `updateUserSchema`: `name` optional non-empty ≤ 100, `role`
an optional enum member, `avatarUrl` optional and nullable (the outer
`Option` is presence, the inner is null; the url format check is
delegated). -/
structure UpdateUserInput where
  name : Option Str
  role : Option Str
  avatarUrl : Option (Option Str)
deriving DecidableEq, Repr

def validUpdateUser (i : UpdateUserInput) : Bool :=
  (match i.name with
   | none => true
   | some n => decide (1 ≤ n.length) && decide (n.length ≤ 100)) &&
  (match i.role with
   | none => true
   | some r => decide (r = "admin".toList) || decide (r = "member".toList) ||
       decide (r = "viewer".toList))

/-! ## Project route handlers (projects router, after `requireAuth`) -/

/-- Embeds GET /api/projects: admins see every project that is not
soft-deleted, everyone else sees only their own. -/
def listProjectsHandler (db : Database) (ctx : AuthContext) :
    HttpResponse × Database :=
  let projects := (mapValues db.projects).filter (fun p =>
    if p.status = "deleted".toList then false
    else if ctx.user.role = "admin".toList then true
    else decide (p.ownerId = ctx.userId))
  (okResponse 200 (.projectList projects), db)

/-- Embeds GET /api/projects/:id: 404 when absent or soft-deleted, 403
when the requester is neither the owner nor an admin. -/
def getProjectHandler (db : Database) (ctx : AuthContext) (id : Str) :
    HttpResponse × Database :=
  match mapGet db.projects id with
  | none => (notFound, db)
  | some project =>
    if project.status = "deleted".toList then (notFound, db)
    else if ¬ project.ownerId = ctx.userId ∧ ¬ ctx.user.role = "admin".toList then
      (forbidden, db)
    else (okResponse 200 (.project project), db)

/-- Embeds POST /api/projects, with the `generateId('prj')` result and the
`now()` timestamp passed in as `newId` and `ts`. -/
def createProjectHandler (db : Database) (ctx : AuthContext)
    (body : CreateProjectInput) (newId ts : Str) : HttpResponse × Database :=
  if validCreateProject body = false then (validationError, db)
  else
    let project : Project :=
      { id := newId, name := body.name, description := body.description.getD [],
        ownerId := ctx.userId, status := "active".toList,
        createdAt := ts, updatedAt := ts }
    (okResponse 201 (.project project),
     { db with projects := mapSet db.projects newId project })

/-- Embeds PUT /api/projects/:id: 404 when absent or soft-deleted, then
the owner-or-admin check, then validation, then the spread-update
`{ ...project, ...input, updatedAt: now() }`. -/
def putProjectHandler (db : Database) (ctx : AuthContext) (id : Str)
    (body : UpdateProjectInput) (ts : Str) : HttpResponse × Database :=
  match mapGet db.projects id with
  | none => (notFound, db)
  | some project =>
    if project.status = "deleted".toList then (notFound, db)
    else if ¬ project.ownerId = ctx.userId ∧ ¬ ctx.user.role = "admin".toList then
      (forbidden, db)
    else if validUpdateProject body = false then (validationError, db)
    else
      let updated : Project :=
        { project with
          name := body.name.getD project.name,
          description := body.description.getD project.description,
          status := body.status.getD project.status,
          updatedAt := ts }
      (okResponse 200 (.project updated),
       { db with projects := mapSet db.projects id updated })

/-- Embeds DELETE /api/projects/:id: 404 when absent or already
soft-deleted, then the owner-or-admin check, then the soft delete
`{ ...project, status: 'deleted', updatedAt: now() }`. -/
def deleteProjectHandler (db : Database) (ctx : AuthContext) (id ts : Str) :
    HttpResponse × Database :=
  match mapGet db.projects id with
  | none => (notFound, db)
  | some project =>
    if project.status = "deleted".toList then (notFound, db)
    else if ¬ project.ownerId = ctx.userId ∧ ¬ ctx.user.role = "admin".toList then
      (forbidden, db)
    else
      let updated : Project :=
        { project with status := "deleted".toList, updatedAt := ts }
      (okResponse 200 .deletedFlag,
       { db with projects := mapSet db.projects id updated })

/-! ## User route handlers (users router) -/

/-- Embeds the handler of GET /api/users (after the `manage:users`
permission middleware): every user, in insertion order. -/
def listUsersHandler (db : Database) (_ctx : AuthContext) :
    HttpResponse × Database :=
  (okResponse 200 (.userList (mapValues db.users)), db)

/-- Embeds GET /api/users/me: the authenticated user's record. -/
def getMeHandler (db : Database) (ctx : AuthContext) :
    HttpResponse × Database :=
  (okResponse 200 (.user ctx.user), db)

/-- Embeds GET /api/users/:id: 404 when absent, otherwise the full record
with no permission or ownership check. -/
def getUserHandler (db : Database) (_ctx : AuthContext) (id : Str) :
    HttpResponse × Database :=
  match mapGet db.users id with
  | none => (notFound, db)
  | some user => (okResponse 200 (.user user), db)

/-- Embeds the handler of POST /api/users (after the `manage:users`
permission middleware): validation, duplicate-email 409, then creation,
with `generateId('usr')` and `now()` passed in as `newId` and `ts`. -/
def createUserHandler (db : Database) (_ctx : AuthContext)
    (body : CreateUserInput) (newId ts : Str) : HttpResponse × Database :=
  if validCreateUser body = false then (validationError, db)
  else if (mapValues db.users).any (fun u => u.email == body.email) then
    (conflict, db)
  else
    let user : User :=
      { id := newId, email := body.email, name := body.name,
        role := body.role.getD ("member".toList), avatarUrl := none,
        createdAt := ts, updatedAt := ts }
    (okResponse 201 (.user user), { db with users := mapSet db.users newId user })

/-- Embeds PUT /api/users/:id: 404 when absent; 403 unless the requester
is the target or an admin; validation; 403 when a `role` field is present
and the requester is not an admin (JS `input.role && !isAdmin`; enum
values are non-empty strings, so presence is truthiness); then the
spread-update `{ ...user, ...input, updatedAt: now() }`. -/
def putUserHandler (db : Database) (ctx : AuthContext) (id : Str)
    (body : UpdateUserInput) (ts : Str) : HttpResponse × Database :=
  match mapGet db.users id with
  | none => (notFound, db)
  | some user =>
    if ¬ ctx.userId = id ∧ ¬ ctx.user.role = "admin".toList then (forbidden, db)
    else if validUpdateUser body = false then (validationError, db)
    else if ¬ body.role = none ∧ ¬ ctx.user.role = "admin".toList then
      (forbidden, db)
    else
      let updated : User :=
        { user with
          name := body.name.getD user.name,
          role := body.role.getD user.role,
          avatarUrl := match body.avatarUrl with
            | none => user.avatarUrl
            | some v => v,
          updatedAt := ts }
      (okResponse 200 (.user updated),
       { db with users := mapSet db.users id updated })

/-- Embeds the handler of DELETE /api/users/:id (after the `manage:users`
permission middleware): 404 when absent, 403 on self-deletion, then the
hard delete. -/
def deleteUserHandler (db : Database) (ctx : AuthContext) (id : Str) :
    HttpResponse × Database :=
  match mapGet db.users id with
  | none => (notFound, db)
  | some _ =>
    if ctx.userId = id then (forbidden, db)
    else (okResponse 200 .deletedFlag, { db with users := mapDelete db.users id })

/-! ## Middleware-composed routes (as wired in the routers) -/

/-- Runs a handler behind `requireAuth`, as `router.verb(path, requireAuth,
handler)` does; a 401 leaves the store untouched. -/
def withAuth (db : Database) (header : Option Str)
    (handler : AuthContext → HttpResponse × Database) : HttpResponse × Database :=
  match requireAuth db.users header with
  | .error r => (r, db)
  | .ok ctx => handler ctx

/-- Embeds the `requirePermission('manage:users')` step in front of a
users-router handler. -/
def withManageUsers (db : Database) (ctx : AuthContext)
    (handler : AuthContext → HttpResponse × Database) : HttpResponse × Database :=
  match requirePermission ("manage:users".toList) ctx with
  | .error r => (r, db)
  | .ok _ => handler ctx

def listProjectsRoute (db : Database) (header : Option Str) :
    HttpResponse × Database :=
  withAuth db header (fun ctx => listProjectsHandler db ctx)

def getProjectRoute (db : Database) (header : Option Str) (id : Str) :
    HttpResponse × Database :=
  withAuth db header (fun ctx => getProjectHandler db ctx id)

def createProjectRoute (db : Database) (header : Option Str)
    (body : CreateProjectInput) (newId ts : Str) : HttpResponse × Database :=
  withAuth db header (fun ctx => createProjectHandler db ctx body newId ts)

def putProjectRoute (db : Database) (header : Option Str) (id : Str)
    (body : UpdateProjectInput) (ts : Str) : HttpResponse × Database :=
  withAuth db header (fun ctx => putProjectHandler db ctx id body ts)

def deleteProjectRoute (db : Database) (header : Option Str) (id ts : Str) :
    HttpResponse × Database :=
  withAuth db header (fun ctx => deleteProjectHandler db ctx id ts)

/-- GET /api/users as seen by an authenticated requester: the
`manage:users` permission middleware, then the handler. -/
def listUsersAuthed (db : Database) (ctx : AuthContext) :
    HttpResponse × Database :=
  withManageUsers db ctx (listUsersHandler db)

/-- POST /api/users as seen by an authenticated requester. -/
def createUserAuthed (db : Database) (ctx : AuthContext)
    (body : CreateUserInput) (newId ts : Str) : HttpResponse × Database :=
  withManageUsers db ctx (fun c => createUserHandler db c body newId ts)

/-- DELETE /api/users/:id as seen by an authenticated requester: the
`manage:users` permission middleware, then the handler with its 404,
self-delete 403 and hard-delete steps. -/
def deleteUserAuthed (db : Database) (ctx : AuthContext) (id : Str) :
    HttpResponse × Database :=
  withManageUsers db ctx (fun c => deleteUserHandler db c id)

def listUsersRoute (db : Database) (header : Option Str) :
    HttpResponse × Database :=
  withAuth db header (fun ctx => listUsersAuthed db ctx)

def getMeRoute (db : Database) (header : Option Str) : HttpResponse × Database :=
  withAuth db header (fun ctx => getMeHandler db ctx)

def getUserRoute (db : Database) (header : Option Str) (id : Str) :
    HttpResponse × Database :=
  withAuth db header (fun ctx => getUserHandler db ctx id)

def createUserRoute (db : Database) (header : Option Str)
    (body : CreateUserInput) (newId ts : Str) : HttpResponse × Database :=
  withAuth db header (fun ctx => createUserAuthed db ctx body newId ts)

def putUserRoute (db : Database) (header : Option Str) (id : Str)
    (body : UpdateUserInput) (ts : Str) : HttpResponse × Database :=
  withAuth db header (fun ctx => putUserHandler db ctx id body ts)

def deleteUserRoute (db : Database) (header : Option Str) (id : Str) :
    HttpResponse × Database :=
  withAuth db header (fun ctx => deleteUserAuthed db ctx id)

/-! ## Seed data (db.ts `seedDatabase`) -/

/-- The seed admin user `usr_alice` (db.ts `seedDatabase`). -/
def alice : User :=
  { id := "usr_alice".toList, email := "alice@acme.com".toList,
    name := "Alice Chen".toList, role := "admin".toList,
    avatarUrl := some ("https://api.dicebear.com/7.x/avataaars/svg?seed=alice".toList),
    createdAt := "2024-01-15T10:00:00Z".toList,
    updatedAt := "2024-01-15T10:00:00Z".toList }

/-- The seed member user `usr_bob`. -/
def bob : User :=
  { id := "usr_bob".toList, email := "bob@acme.com".toList,
    name := "Bob Martinez".toList, role := "member".toList,
    avatarUrl := some ("https://api.dicebear.com/7.x/avataaars/svg?seed=bob".toList),
    createdAt := "2024-02-01T14:30:00Z".toList,
    updatedAt := "2024-02-01T14:30:00Z".toList }

/-- The seed viewer user `usr_carol`. -/
def carol : User :=
  { id := "usr_carol".toList, email := "carol@acme.com".toList,
    name := "Carol Kim".toList, role := "viewer".toList,
    avatarUrl := some ("https://api.dicebear.com/7.x/avataaars/svg?seed=carol".toList),
    createdAt := "2024-02-15T09:00:00Z".toList,
    updatedAt := "2024-02-15T09:00:00Z".toList }

/-- The seed project `prj_website`, owned by `usr_alice`. -/
def prjWebsite : Project :=
  { id := "prj_website".toList, name := "Marketing Website".toList,
    description := "Main company marketing site with CMS integration".toList,
    ownerId := "usr_alice".toList, status := "active".toList,
    createdAt := "2024-01-20T11:00:00Z".toList,
    updatedAt := "2024-03-10T15:30:00Z".toList }

/-- The seed project `prj_mobile`, owned by `usr_bob`. -/
def prjMobile : Project :=
  { id := "prj_mobile".toList, name := "Mobile App v2".toList,
    description := "React Native app for iOS and Android".toList,
    ownerId := "usr_bob".toList, status := "active".toList,
    createdAt := "2024-02-05T08:00:00Z".toList,
    updatedAt := "2024-03-15T12:00:00Z".toList }

/-- The seed project `prj_api`, owned by `usr_alice`. -/
def prjApi : Project :=
  { id := "prj_api".toList, name := "Public API".toList,
    description := "REST API for third-party integrations".toList,
    ownerId := "usr_alice".toList, status := "active".toList,
    createdAt := "2024-02-10T16:00:00Z".toList,
    updatedAt := "2024-03-12T09:45:00Z".toList }

/-- The archived seed project `prj_legacy`, owned by `usr_alice`. -/
def prjLegacy : Project :=
  { id := "prj_legacy".toList, name := "Legacy Dashboard".toList,
    description := "Old admin dashboard - being phased out".toList,
    ownerId := "usr_alice".toList, status := "archived".toList,
    createdAt := "2023-06-01T10:00:00Z".toList,
    updatedAt := "2024-01-15T10:00:00Z".toList }

/-- Embeds the seed store built by `seedDatabase()` in db.ts: three users
(alice admin, bob member, carol viewer) and four projects, `prj_legacy`
archived and the rest active. -/
def seedDb : Database :=
  { users :=
      [("usr_alice".toList, alice), ("usr_bob".toList, bob),
       ("usr_carol".toList, carol)],
    projects :=
      [("prj_website".toList, prjWebsite), ("prj_mobile".toList, prjMobile),
       ("prj_api".toList, prjApi), ("prj_legacy".toList, prjLegacy)] }

/-- The seed admin Alice, as an authenticated context (any session id). -/
def aliceCtx : AuthContext :=
  { userId := "usr_alice".toList, user := alice, sessionId := "demo123".toList }

/-- The seed member Bob, as an authenticated context. -/
def bobCtx : AuthContext :=
  { userId := "usr_bob".toList, user := bob, sessionId := "demo234".toList }

/-- The seed viewer Carol, as an authenticated context. -/
def carolCtx : AuthContext :=
  { userId := "usr_carol".toList, user := carol, sessionId := "demo456".toList }

/-- Store lemma: reading back the key just written returns the new value. -/
theorem mapGet_mapSet_self {α : Type} (m : StoreMap α) (k : Str) (v : α) :
    mapGet (mapSet m k v) k = some v := by
  induction m with
  | nil => simp [mapSet, mapGet]
  | cons kv rest ih =>
    by_cases hk : kv.1 = k
    · simp [mapSet, mapGet, hk]
    · simp [mapSet, mapGet, hk, ih]

/-! ## Claims about the route handlers -/

/-- C2. Ownership policy on projects: for every authenticated request to
update or delete an existing, not-deleted project, the decision is Allow
iff the requester's identity id equals the project's `ownerId` or the
requester's role is admin; in every other case the request is denied with
403 Forbidden and the project store is not modified. -/
theorem C2_project_owner_or_admin (db : Database) (ctx : AuthContext)
    (pid : Str) (project : Project) (body : UpdateProjectInput) (ts : Str)
    (hget : mapGet db.projects pid = some project)
    (hlive : project.status ≠ "deleted".toList) :
    (¬ (ctx.userId = project.ownerId ∨ ctx.user.role = "admin".toList) →
      (putProjectHandler db ctx pid body ts).1 = forbidden ∧
      (putProjectHandler db ctx pid body ts).2 = db ∧
      (deleteProjectHandler db ctx pid ts).1 = forbidden ∧
      (deleteProjectHandler db ctx pid ts).2 = db) ∧
    ((ctx.userId = project.ownerId ∨ ctx.user.role = "admin".toList) →
      (putProjectHandler db ctx pid body ts).1.status ≠ 403 ∧
      (deleteProjectHandler db ctx pid ts).1.success = true) := by
  constructor
  · intro hdeny
    push_neg at hdeny
    have hcond : ¬ project.ownerId = ctx.userId ∧
        ¬ ctx.user.role = "admin".toList :=
      ⟨fun h => hdeny.1 h.symm, hdeny.2⟩
    refine ⟨?_, ?_, ?_, ?_⟩ <;>
    · simp only [putProjectHandler, deleteProjectHandler, hget]
      rw [if_neg hlive, if_pos hcond]
  · intro hallow
    have hcond : ¬ (¬ project.ownerId = ctx.userId ∧
        ¬ ctx.user.role = "admin".toList) := by
      rcases hallow with h | h
      · exact fun hc => hc.1 h.symm
      · exact fun hc => hc.2 h
    constructor
    · simp only [putProjectHandler, hget]
      rw [if_neg hlive, if_neg hcond]
      by_cases hv : validUpdateProject body = false
      · rw [if_pos hv]
        simp [validationError, errorResponse]
      · rw [if_neg hv]
        simp [okResponse]
    · simp only [deleteProjectHandler, hget]
      rw [if_neg hlive, if_neg hcond]
      rfl

/-- Witness for C2: the viewer Carol is neither owner of `prj_website`
nor admin, so her delete attempt is denied and the seed store is kept. -/
theorem C2_project_owner_or_admin_witness :
    (deleteProjectHandler seedDb carolCtx ("prj_website".toList)
        ("2024-04-01T00:00:00Z".toList)).1 = forbidden ∧
    (deleteProjectHandler seedDb carolCtx ("prj_website".toList)
        ("2024-04-01T00:00:00Z".toList)).2 = seedDb :=
  have h := (C2_project_owner_or_admin seedDb carolCtx ("prj_website".toList)
    prjWebsite ⟨none, none, none⟩ ("2024-04-01T00:00:00Z".toList) (by rfl)
    (by decide)).1 (by decide)
  ⟨h.2.2.1, h.2.2.2⟩

/-- C3. Self-delete protection: for every authenticated DELETE
/api/users/:id request whose target id is the requester's own identity id
(present in the store), the request is denied with 403 and the target user
remains in the store — for every role, including admin (a non-admin is
stopped by the `manage:users` permission middleware, an admin by the
standalone self-delete check). -/
theorem C3_self_delete_denied (db : Database) (ctx : AuthContext) (u : User)
    (hself : mapGet db.users ctx.userId = some u) :
    (deleteUserAuthed db ctx ctx.userId).1.status = 403 ∧
    (deleteUserAuthed db ctx ctx.userId).2 = db ∧
    mapGet (deleteUserAuthed db ctx ctx.userId).2.users ctx.userId = some u := by
  unfold deleteUserAuthed withManageUsers requirePermission
  by_cases hp : hasPermission ctx.user ("manage:users".toList) = false
  · rw [if_pos hp]
    exact ⟨rfl, rfl, hself⟩
  · rw [if_neg hp]
    simp only [deleteUserHandler, hself]
    rw [if_pos trivial]
    exact ⟨rfl, rfl, hself⟩

/-- Witness for C3: the admin Alice deleting her own account on the seed
store is denied. -/
theorem C3_self_delete_denied_witness :
    (deleteUserAuthed seedDb aliceCtx aliceCtx.userId).1.status = 403 ∧
    (deleteUserAuthed seedDb aliceCtx aliceCtx.userId).2 = seedDb ∧
    mapGet (deleteUserAuthed seedDb aliceCtx aliceCtx.userId).2.users
      aliceCtx.userId = some alice :=
  C3_self_delete_denied seedDb aliceCtx alice (by rfl)

/-- C4. Role-escalation rule: for every authenticated PUT /api/users/:id
request on an existing user, with the requester being the target or an
admin and the input valid, if the input includes a `role` field then a
non-admin requester is denied with 403 and the store is unchanged — even
on their own identity — while an admin requester gets the role change
applied. -/
theorem C4_role_escalation (db : Database) (ctx : AuthContext) (tid ts : Str)
    (u : User) (body : UpdateUserInput) (r : Str)
    (hget : mapGet db.users tid = some u)
    (hwho : ctx.userId = tid ∨ ctx.user.role = "admin".toList)
    (hvalid : validUpdateUser body = true)
    (hrole : body.role = some r) :
    (¬ ctx.user.role = "admin".toList →
      (putUserHandler db ctx tid body ts).1 = forbidden ∧
      (putUserHandler db ctx tid body ts).2 = db) ∧
    (ctx.user.role = "admin".toList →
      (putUserHandler db ctx tid body ts).1.success = true ∧
      mapGet (putUserHandler db ctx tid body ts).2.users tid =
        some { u with
          name := body.name.getD u.name,
          role := r,
          avatarUrl := match body.avatarUrl with
            | none => u.avatarUrl
            | some v => v,
          updatedAt := ts }) := by
  constructor
  · intro hnadmin
    have hself : ctx.userId = tid := by
      rcases hwho with h | h
      · exact h
      · exact absurd h hnadmin
    simp only [putUserHandler, hget]
    rw [if_neg (fun hc => hc.1 hself)]
    rw [if_neg (by simp [hvalid])]
    rw [if_pos ⟨by simp [hrole], hnadmin⟩]
    exact ⟨rfl, rfl⟩
  · intro hadmin
    simp only [putUserHandler, hget]
    rw [if_neg (fun hc => hc.2 hadmin)]
    rw [if_neg (by simp [hvalid])]
    rw [if_neg (fun hc => hc.2 hadmin)]
    refine ⟨rfl, ?_⟩
    simp only [mapGet_mapSet_self, hrole, Option.getD_some, Option.some.injEq]

/-- Witness for C4: the viewer Carol submitting a role change on her own
identity is denied and the seed store is unchanged. -/
theorem C4_role_escalation_witness :
    (putUserHandler seedDb carolCtx ("usr_carol".toList)
        ⟨none, some ("admin".toList), none⟩ ("2024-04-01T00:00:00Z".toList)).1 =
      forbidden ∧
    (putUserHandler seedDb carolCtx ("usr_carol".toList)
        ⟨none, some ("admin".toList), none⟩ ("2024-04-01T00:00:00Z".toList)).2 =
      seedDb :=
  (C4_role_escalation seedDb carolCtx ("usr_carol".toList)
    ("2024-04-01T00:00:00Z".toList) carol ⟨none, some ("admin".toList), none⟩
    ("admin".toList) (by rfl) (Or.inl (by rfl)) (by decide) rfl).1 (by decide)

/-- C9. Soft-delete visibility invariant: deleting a project (as owner or
admin) succeeds and keeps the record in the store with status `'deleted'`;
a project whose status is `'deleted'` is filtered out of GET /api/projects
for every requester, and GET /api/projects/:id answers 404 Not Found for
it without touching the store. -/
theorem C9_soft_delete_visibility (db : Database) (ctx : AuthContext)
    (pid ts : Str) (project : Project)
    (hget : mapGet db.projects pid = some project)
    (hlive : project.status ≠ "deleted".toList)
    (hallow : ctx.userId = project.ownerId ∨ ctx.user.role = "admin".toList) :
    ((deleteProjectHandler db ctx pid ts).1.success = true ∧
     mapGet (deleteProjectHandler db ctx pid ts).2.projects pid =
       some { project with status := "deleted".toList, updatedAt := ts }) ∧
    (∀ (db' : Database) (c : AuthContext) (l : List Project),
      (listProjectsHandler db' c).1.payload = .projectList l →
      ∀ p ∈ l, p.status ≠ "deleted".toList) ∧
    (∀ (db' : Database) (c : AuthContext) (id : Str) (p : Project),
      mapGet db'.projects id = some p → p.status = "deleted".toList →
      (getProjectHandler db' c id).1 = notFound ∧
      (getProjectHandler db' c id).2 = db') := by
  have hcond : ¬ (¬ project.ownerId = ctx.userId ∧
      ¬ ctx.user.role = "admin".toList) := by
    rcases hallow with h | h
    · exact fun hc => hc.1 h.symm
    · exact fun hc => hc.2 h
  refine ⟨?_, ?_, ?_⟩
  · simp only [deleteProjectHandler, hget]
    rw [if_neg hlive, if_neg hcond]
    exact ⟨rfl, mapGet_mapSet_self db.projects pid _⟩
  · intro db' c l hpl p hp
    simp only [listProjectsHandler, okResponse] at hpl
    injection hpl with hpl
    subst hpl
    rw [List.mem_filter] at hp
    intro hdel
    have hpred := hp.2
    simp [hdel] at hpred
  · intro db' c id p hget' hdel
    simp only [getProjectHandler, hget']
    rw [if_pos hdel]
    exact ⟨rfl, rfl⟩

/-- Witness for C9: the admin Alice soft-deletes `prj_website` on the
seed store; the record stays, with status `'deleted'`. -/
theorem C9_soft_delete_visibility_witness :
    (deleteProjectHandler seedDb aliceCtx ("prj_website".toList)
        ("2024-04-01T00:00:00Z".toList)).1.success = true ∧
    mapGet (deleteProjectHandler seedDb aliceCtx ("prj_website".toList)
        ("2024-04-01T00:00:00Z".toList)).2.projects ("prj_website".toList) =
      some
        { prjWebsite with
          status := "deleted".toList,
          updatedAt := "2024-04-01T00:00:00Z".toList } :=
  (C9_soft_delete_visibility seedDb aliceCtx ("prj_website".toList)
    ("2024-04-01T00:00:00Z".toList) prjWebsite (by rfl) (by decide)
    (Or.inr (by rfl))).1

/-- C10. Per-user read requires only authentication: for every
authenticated requester of any role and every existing user id,
GET /api/users/:id answers 200 with that user's full record and no
permission or ownership check, whereas GET /api/users is 403 exactly when
the requester lacks the `manage:users` permission and otherwise lists
every stored user. -/
theorem C10_user_read_rules (db : Database) (ctx : AuthContext) (uid : Str)
    (u : User) (hget : mapGet db.users uid = some u) :
    ((getUserHandler db ctx uid).1 = okResponse 200 (.user u) ∧
     (getUserHandler db ctx uid).2 = db) ∧
    (hasPermission ctx.user ("manage:users".toList) = false →
      (listUsersAuthed db ctx).1 = forbidden ∧
      (listUsersAuthed db ctx).2 = db) ∧
    (hasPermission ctx.user ("manage:users".toList) = true →
      (listUsersAuthed db ctx).1 =
        okResponse 200 (.userList (mapValues db.users))) := by
  refine ⟨?_, ?_, ?_⟩
  · simp only [getUserHandler, hget]
    constructor <;> trivial
  · intro hp
    unfold listUsersAuthed withManageUsers requirePermission
    rw [if_pos hp]
    constructor <;> trivial
  · intro hp
    unfold listUsersAuthed withManageUsers requirePermission
    rw [if_neg (fun hc => absurd (hp.symm.trans hc) (by decide))]
    rfl

/-- Witness for C10: the viewer Carol can read `usr_bob` by id but is
denied the full listing. -/
theorem C10_user_read_rules_witness :
    (getUserHandler seedDb carolCtx ("usr_bob".toList)).1 =
      okResponse 200 (.user bob) ∧
    (listUsersAuthed seedDb carolCtx).1 = forbidden :=
  have h := C10_user_read_rules seedDb carolCtx ("usr_bob".toList) bob (by rfl)
  ⟨h.1.1, (h.2.1 (by decide)).1⟩

/-! ## Per-route atomicity lemmas (for C8)

Every route function returns the response together with the store it
leaves behind; these lemmas show that whenever the response has
`success: false` (the 400/401/403/404/409 paths), the store is the one
the request started from. They are proved per handler and lifted through
the middleware combinators. -/

theorem withAuth_atomic (db : Database) (header : Option Str)
    (handler : AuthContext → HttpResponse × Database)
    (hh : ∀ ctx, (handler ctx).1.success = false → (handler ctx).2 = db) :
    (withAuth db header handler).1.success = false →
    (withAuth db header handler).2 = db := by
  unfold withAuth
  cases requireAuth db.users header with
  | error r => exact fun _ => rfl
  | ok ctx => exact hh ctx

theorem withManageUsers_atomic (db : Database) (ctx : AuthContext)
    (handler : AuthContext → HttpResponse × Database)
    (hh : ∀ c, (handler c).1.success = false → (handler c).2 = db) :
    (withManageUsers db ctx handler).1.success = false →
    (withManageUsers db ctx handler).2 = db := by
  unfold withManageUsers
  cases requirePermission ("manage:users".toList) ctx with
  | error r => exact fun _ => rfl
  | ok a => exact hh ctx

theorem listProjectsHandler_atomic (db : Database) (ctx : AuthContext) :
    (listProjectsHandler db ctx).2 = db := rfl

theorem getProjectHandler_atomic (db : Database) (ctx : AuthContext)
    (id : Str) : (getProjectHandler db ctx id).2 = db := by
  unfold getProjectHandler
  split
  · rfl
  · split
    · rfl
    · split
      · rfl
      · rfl

theorem createProjectHandler_atomic (db : Database) (ctx : AuthContext)
    (body : CreateProjectInput) (newId ts : Str) :
    (createProjectHandler db ctx body newId ts).1.success = false →
    (createProjectHandler db ctx body newId ts).2 = db := by
  unfold createProjectHandler
  split
  · exact fun _ => rfl
  · intro h
    simp [okResponse] at h

theorem putProjectHandler_atomic (db : Database) (ctx : AuthContext)
    (id : Str) (body : UpdateProjectInput) (ts : Str) :
    (putProjectHandler db ctx id body ts).1.success = false →
    (putProjectHandler db ctx id body ts).2 = db := by
  unfold putProjectHandler
  split
  · exact fun _ => rfl
  · split
    · exact fun _ => rfl
    · split
      · exact fun _ => rfl
      · split
        · exact fun _ => rfl
        · intro h
          simp [okResponse] at h

theorem deleteProjectHandler_atomic (db : Database) (ctx : AuthContext)
    (id ts : Str) :
    (deleteProjectHandler db ctx id ts).1.success = false →
    (deleteProjectHandler db ctx id ts).2 = db := by
  unfold deleteProjectHandler
  split
  · exact fun _ => rfl
  · split
    · exact fun _ => rfl
    · split
      · exact fun _ => rfl
      · intro h
        simp [okResponse] at h

theorem listUsersHandler_atomic (db : Database) (ctx : AuthContext) :
    (listUsersHandler db ctx).2 = db := rfl

theorem getMeHandler_atomic (db : Database) (ctx : AuthContext) :
    (getMeHandler db ctx).2 = db := rfl

theorem getUserHandler_atomic (db : Database) (ctx : AuthContext) (id : Str) :
    (getUserHandler db ctx id).2 = db := by
  unfold getUserHandler
  split
  · rfl
  · rfl

theorem createUserHandler_atomic (db : Database) (ctx : AuthContext)
    (body : CreateUserInput) (newId ts : Str) :
    (createUserHandler db ctx body newId ts).1.success = false →
    (createUserHandler db ctx body newId ts).2 = db := by
  unfold createUserHandler
  split
  · exact fun _ => rfl
  · split
    · exact fun _ => rfl
    · intro h
      simp [okResponse] at h

theorem putUserHandler_atomic (db : Database) (ctx : AuthContext) (id : Str)
    (body : UpdateUserInput) (ts : Str) :
    (putUserHandler db ctx id body ts).1.success = false →
    (putUserHandler db ctx id body ts).2 = db := by
  unfold putUserHandler
  split
  · exact fun _ => rfl
  · split
    · exact fun _ => rfl
    · split
      · exact fun _ => rfl
      · split
        · exact fun _ => rfl
        · intro h
          simp [okResponse] at h

theorem deleteUserHandler_atomic (db : Database) (ctx : AuthContext)
    (id : Str) :
    (deleteUserHandler db ctx id).1.success = false →
    (deleteUserHandler db ctx id).2 = db := by
  unfold deleteUserHandler
  split
  · exact fun _ => rfl
  · split
    · exact fun _ => rfl
    · intro h
      simp [okResponse] at h

theorem listProjectsRoute_atomic (db : Database) (header : Option Str) :
    (listProjectsRoute db header).1.success = false →
    (listProjectsRoute db header).2 = db := by
  unfold listProjectsRoute
  exact withAuth_atomic db header _
    (fun ctx _ => listProjectsHandler_atomic db ctx)

theorem getProjectRoute_atomic (db : Database) (header : Option Str)
    (id : Str) :
    (getProjectRoute db header id).1.success = false →
    (getProjectRoute db header id).2 = db := by
  unfold getProjectRoute
  exact withAuth_atomic db header _
    (fun ctx _ => getProjectHandler_atomic db ctx id)

theorem createProjectRoute_atomic (db : Database) (header : Option Str)
    (body : CreateProjectInput) (newId ts : Str) :
    (createProjectRoute db header body newId ts).1.success = false →
    (createProjectRoute db header body newId ts).2 = db := by
  unfold createProjectRoute
  exact withAuth_atomic db header _
    (fun ctx => createProjectHandler_atomic db ctx body newId ts)

theorem putProjectRoute_atomic (db : Database) (header : Option Str)
    (id : Str) (body : UpdateProjectInput) (ts : Str) :
    (putProjectRoute db header id body ts).1.success = false →
    (putProjectRoute db header id body ts).2 = db := by
  unfold putProjectRoute
  exact withAuth_atomic db header _
    (fun ctx => putProjectHandler_atomic db ctx id body ts)

theorem deleteProjectRoute_atomic (db : Database) (header : Option Str)
    (id ts : Str) :
    (deleteProjectRoute db header id ts).1.success = false →
    (deleteProjectRoute db header id ts).2 = db := by
  unfold deleteProjectRoute
  exact withAuth_atomic db header _
    (fun ctx => deleteProjectHandler_atomic db ctx id ts)

theorem listUsersRoute_atomic (db : Database) (header : Option Str) :
    (listUsersRoute db header).1.success = false →
    (listUsersRoute db header).2 = db := by
  unfold listUsersRoute
  refine withAuth_atomic db header _ (fun ctx => ?_)
  unfold listUsersAuthed
  exact withManageUsers_atomic db ctx _
    (fun c _ => listUsersHandler_atomic db c)

theorem getMeRoute_atomic (db : Database) (header : Option Str) :
    (getMeRoute db header).1.success = false →
    (getMeRoute db header).2 = db := by
  unfold getMeRoute
  exact withAuth_atomic db header _ (fun ctx _ => getMeHandler_atomic db ctx)

theorem getUserRoute_atomic (db : Database) (header : Option Str) (id : Str) :
    (getUserRoute db header id).1.success = false →
    (getUserRoute db header id).2 = db := by
  unfold getUserRoute
  exact withAuth_atomic db header _
    (fun ctx _ => getUserHandler_atomic db ctx id)

theorem createUserRoute_atomic (db : Database) (header : Option Str)
    (body : CreateUserInput) (newId ts : Str) :
    (createUserRoute db header body newId ts).1.success = false →
    (createUserRoute db header body newId ts).2 = db := by
  unfold createUserRoute
  refine withAuth_atomic db header _ (fun ctx => ?_)
  unfold createUserAuthed
  exact withManageUsers_atomic db ctx _
    (fun c => createUserHandler_atomic db c body newId ts)

theorem putUserRoute_atomic (db : Database) (header : Option Str) (id : Str)
    (body : UpdateUserInput) (ts : Str) :
    (putUserRoute db header id body ts).1.success = false →
    (putUserRoute db header id body ts).2 = db := by
  unfold putUserRoute
  exact withAuth_atomic db header _
    (fun ctx => putUserHandler_atomic db ctx id body ts)

theorem deleteUserRoute_atomic (db : Database) (header : Option Str)
    (id : Str) :
    (deleteUserRoute db header id).1.success = false →
    (deleteUserRoute db header id).2 = db := by
  unfold deleteUserRoute
  refine withAuth_atomic db header _ (fun ctx => ?_)
  unfold deleteUserAuthed
  exact withManageUsers_atomic db ctx _
    (fun c => deleteUserHandler_atomic db c id)

/-- C8. Atomicity on denial and error: for every request to any of the
users or projects routes (middleware included) that produces an
unsuccessful response — the 401 Unauthorized, 403 Forbidden, 404 Not
Found, 400 Validation Error and 409 Conflict paths, i.e. every response
with `success: false` — the store that comes out is exactly the store
that went in: no user or project is created, modified or removed on any
error path. -/
theorem C8_error_atomicity :
    (∀ (db : Database) (header : Option Str),
      (listProjectsRoute db header).1.success = false →
      (listProjectsRoute db header).2 = db) ∧
    (∀ (db : Database) (header : Option Str) (id : Str),
      (getProjectRoute db header id).1.success = false →
      (getProjectRoute db header id).2 = db) ∧
    (∀ (db : Database) (header : Option Str) (body : CreateProjectInput)
        (newId ts : Str),
      (createProjectRoute db header body newId ts).1.success = false →
      (createProjectRoute db header body newId ts).2 = db) ∧
    (∀ (db : Database) (header : Option Str) (id : Str)
        (body : UpdateProjectInput) (ts : Str),
      (putProjectRoute db header id body ts).1.success = false →
      (putProjectRoute db header id body ts).2 = db) ∧
    (∀ (db : Database) (header : Option Str) (id ts : Str),
      (deleteProjectRoute db header id ts).1.success = false →
      (deleteProjectRoute db header id ts).2 = db) ∧
    (∀ (db : Database) (header : Option Str),
      (listUsersRoute db header).1.success = false →
      (listUsersRoute db header).2 = db) ∧
    (∀ (db : Database) (header : Option Str),
      (getMeRoute db header).1.success = false →
      (getMeRoute db header).2 = db) ∧
    (∀ (db : Database) (header : Option Str) (id : Str),
      (getUserRoute db header id).1.success = false →
      (getUserRoute db header id).2 = db) ∧
    (∀ (db : Database) (header : Option Str) (body : CreateUserInput)
        (newId ts : Str),
      (createUserRoute db header body newId ts).1.success = false →
      (createUserRoute db header body newId ts).2 = db) ∧
    (∀ (db : Database) (header : Option Str) (id : Str)
        (body : UpdateUserInput) (ts : Str),
      (putUserRoute db header id body ts).1.success = false →
      (putUserRoute db header id body ts).2 = db) ∧
    (∀ (db : Database) (header : Option Str) (id : Str),
      (deleteUserRoute db header id).1.success = false →
      (deleteUserRoute db header id).2 = db) :=
  ⟨listProjectsRoute_atomic, getProjectRoute_atomic, createProjectRoute_atomic,
   putProjectRoute_atomic, deleteProjectRoute_atomic, listUsersRoute_atomic,
   getMeRoute_atomic, getUserRoute_atomic, createUserRoute_atomic,
   putUserRoute_atomic, deleteUserRoute_atomic⟩

/-- Witness for C8: a DELETE /api/projects/:id request without an
`Authorization` header fails (401) and leaves the seed store unchanged. -/
theorem C8_error_atomicity_witness :
    (deleteProjectRoute seedDb none ("prj_website".toList)
        ("2024-04-01T00:00:00Z".toList)).2 = seedDb :=
  C8_error_atomicity.2.2.2.2.1 seedDb none ("prj_website".toList)
    ("2024-04-01T00:00:00Z".toList) (by rfl)

/-- Witness for C7 at the permission `"read"`: viewer's only permission
is also a member permission. -/
theorem C7_viewer_strictly_below_member_witness :
    "read".toList ∈ PERMISSIONS ("member".toList) :=
  C7_viewer_strictly_below_member.1 ("read".toList) (by decide)
